import Mathlib

/-!
# pisanomatic: `notes.h`

A verification development over the configuration header of the polyphonic
note synthesiser.  The header fixes the capacities (`NOTES`, `MAXVOICES`,
`MAXENVELOPES`), the mixer headroom (`NOTE_OVERFLOW_SHIFT`), the voice and
envelope catalogs, and declares `maxMidi`, `setupNotes` and `startNote`.
-/

namespace Pisano

/-! ## Capacities and headroom (`notes.h`, lines 3-8) -/

/-- The maximum number of notes played simultaneously: `#define NOTES (3)`. -/
def NOTES : Nat := 3

/-- Maximum number of voices: `#define MAXVOICES (6)`. -/
def MAXVOICES : Nat := 6

/-- Maximum number of envelopes: `#define MAXENVELOPES (6)`. -/
def MAXENVELOPES : Nat := 6

/-- Headroom shift of the mixer: `#define NOTE_OVERFLOW_SHIFT 1`. -/
def NOTE_OVERFLOW_SHIFT : Nat := 1

/-- The sizing guidance written next to `NOTE_OVERFLOW_SHIFT` (`4 -> 1`,
`12 -> 2`), read as a step table on the number of notes.  The header gives no
suggestion beyond twelve notes. -/
def suggestedShift (notes : Nat) : Option Nat :=
  if notes ≤ 4 then some 1
  else if notes ≤ 12 then some 2
  else none

/-! ## Voice catalog (`notes.h`, lines 16-21) -/

/-- Simple sine wave. -/
def VOICE_SINE : Int := 0
/-- Simple square wave. -/
def VOICE_SQUARE : Int := 1
/-- Triangle wave. -/
def VOICE_TRIANGLE : Int := 2
/-- Sawtooth wave. -/
def VOICE_SAWTOOTH : Int := 3
/-- Sampled brass. -/
def VOICE_BRASS : Int := 4
/-- Sampled vibraphone. -/
def VOICE_VIBRA : Int := 5

/-- The voice identifiers in the order the header declares them. -/
def declaredVoices : List Int :=
  [VOICE_SINE, VOICE_SQUARE, VOICE_TRIANGLE, VOICE_SAWTOOTH, VOICE_BRASS, VOICE_VIBRA]

/-! ## Envelope catalog (`notes.h`, lines 23-28) -/

/-- Linear decay to zero. -/
def ENVELOPE_LINEAR : Int := 0
/-- Exponential decay, similar to a bell. -/
def ENVELOPE_EXP : Int := 1
/-- Simple on/off gating. -/
def ENVELOPE_GATE : Int := 2
/-- Attack, decay, sustain, release. -/
def ENVELOPE_ADSR : Int := 3
/-- Short exponential attack and decay. -/
def ENVELOPE_SUSTAIN : Int := 4
/-- Like ADSR but with modulated sustain amplitude. -/
def ENVELOPE_TREMOLO : Int := 5

/-- The envelope identifiers in the order the header declares them. -/
def declaredEnvelopes : List Int :=
  [ENVELOPE_LINEAR, ENVELOPE_EXP, ENVELOPE_GATE, ENVELOPE_ADSR, ENVELOPE_SUSTAIN,
    ENVELOPE_TREMOLO]

/-! ## Mixer headroom -/

/-- Modelled from the spec: the Mixer's sum-and-shift step (section 4.4), whose
loop is not in `notes.h`.  The per-note samples are summed into the
accumulator and the sum is arithmetically shifted right by
`NOTE_OVERFLOW_SHIFT`. -/
def mixShift (samples : List Int) : Int :=
  samples.sum >>> NOTE_OVERFLOW_SHIFT

/-! ## Engine state

`notes.h` declares `maxMidi`, `setupNotes` and `startNote` as `extern`; their
bodies and the slot pool live in a translation unit that is not part of the
header.  The definitions of this section follow the specification's data model
(section 3) and Voice Allocator contract (section 4.1). -/

/-- Modelled from the spec: the `voiceKind` enumeration of a VoiceSlot (the
slot pool is not in `notes.h`). -/
inductive VoiceKind where
  | sine | square | triangle | sawtooth | brass | vibra
  deriving DecidableEq, Repr

/-- Modelled from the spec: the `envelopeKind` enumeration of a VoiceSlot (the
slot pool is not in `notes.h`). -/
inductive EnvelopeKind where
  | linear | exp | gate | adsr | sustain | tremolo
  deriving DecidableEq, Repr

/-- Modelled from the spec: the stages of the envelope state machines of
section 4.2 (the Envelope Generator is not in `notes.h`). -/
inductive EnvStage where
  | attack | decay | sustain | release | gateOn | silent
  deriving DecidableEq, Repr

/-- Modelled from the spec: EnvelopeState, a progress counter plus the derived
current amplitude (the Envelope Generator is not in `notes.h`). -/
structure EnvelopeState where
  stage : EnvStage
  progress : Nat
  amplitude : Nat
  deriving DecidableEq, Repr

/-- Modelled from the spec: VoiceSlot, one unit of the fixed-size polyphony
pool (the pool is not in `notes.h`). -/
structure VoiceSlot where
  active : Bool
  voiceKind : VoiceKind
  envelopeKind : EnvelopeKind
  midiNoteNumber : Int
  phaseAccumulator : Nat
  volumeDelta : Int
  sweepMillisecs : Int
  vibratoPercent : Int
  envelopeState : EnvelopeState
  deriving DecidableEq, Repr

/-- Modelled from the spec: an inactive, zeroed slot, as `setupNotes` leaves
it (the body of `setupNotes` is not in `notes.h`). -/
def VoiceSlot.idle : VoiceSlot :=
  { active := false, voiceKind := .sine, envelopeKind := .linear, midiNoteNumber := 0,
    phaseAccumulator := 0, volumeDelta := 0, sweepMillisecs := 0, vibratoPercent := 0,
    envelopeState := { stage := .silent, progress := 0, amplitude := 0 } }

/-- Modelled from the spec: the engine state, an array of `MAXVOICES` slots
whose index is the slot identity (the pool is not in `notes.h`). -/
structure Engine where
  slots : Fin MAXVOICES → VoiceSlot

/-- Modelled from the spec: the two behaviours section 7 allows for a
`midiNoteNumber` outside the valid range, clamp it or ignore the request (no
range check is in `notes.h`). -/
inductive MidiPolicy where
  | clamp | ignore
  deriving DecidableEq, Repr

/-- Modelled from the spec: what the specification leaves to the implementer.
`maxMidi` is the `extern uint16_t maxMidi` of the header; `fullAmplitude` is the
amplitude an envelope starts at when it has no attack ramp; `midiPolicy` is the
out-of-range pitch behaviour; `saturation` is the deterministic policy applied
when no slot is free, `none` dropping the request and `some i` stealing slot
`i` (the allocator is not in `notes.h`). -/
structure EngineConfig where
  maxMidi : Nat
  maxMidi_u16 : maxMidi < 65536
  fullAmplitude : Nat
  midiPolicy : MidiPolicy
  saturation : Engine → Option (Fin MAXVOICES)

/-- Modelled from the spec: the defensive guard on the `voice` index; an index
outside the catalog is rejected (the body of `startNote` is not in
`notes.h`). -/
def voiceOfIndex (voice : Int) : Option VoiceKind :=
  if voice = VOICE_SINE then some .sine
  else if voice = VOICE_SQUARE then some .square
  else if voice = VOICE_TRIANGLE then some .triangle
  else if voice = VOICE_SAWTOOTH then some .sawtooth
  else if voice = VOICE_BRASS then some .brass
  else if voice = VOICE_VIBRA then some .vibra
  else none

/-- Modelled from the spec: the defensive guard on the `envelope` index; an
index outside the catalog is rejected (the body of `startNote` is not in
`notes.h`). -/
def envelopeOfIndex (envelope : Int) : Option EnvelopeKind :=
  if envelope = ENVELOPE_LINEAR then some .linear
  else if envelope = ENVELOPE_EXP then some .exp
  else if envelope = ENVELOPE_GATE then some .gate
  else if envelope = ENVELOPE_ADSR then some .adsr
  else if envelope = ENVELOPE_SUSTAIN then some .sustain
  else if envelope = ENVELOPE_TREMOLO then some .tremolo
  else none

/-- Modelled from the spec: clamping a pitch into the valid range
`0 .. maxMidi` (no range check is in `notes.h`). -/
def clampMidi (cfg : EngineConfig) (midiNoteNumber : Int) : Int :=
  if midiNoteNumber < 0 then 0
  else if (cfg.maxMidi : Int) < midiNoteNumber then (cfg.maxMidi : Int)
  else midiNoteNumber

/-- Modelled from the spec: the pitch a request starts with.  A pitch within
`0 .. maxMidi` is taken as it is; any other one is clamped or makes the request
ignored, as the configuration says (no range check is in `notes.h`). -/
def admitMidi (cfg : EngineConfig) (midiNoteNumber : Int) : Option Int :=
  if 0 ≤ midiNoteNumber ∧ midiNoteNumber ≤ (cfg.maxMidi : Int) then some midiNoteNumber
  else
    match cfg.midiPolicy with
    | .clamp => some (clampMidi cfg midiNoteNumber)
    | .ignore => none

/-- Modelled from the spec: the state the Envelope Generator starts in, the
attack stage for ADSR, TREMOLO and SUSTAIN and immediately full amplitude for
GATE, LINEAR and EXP (the Envelope Generator is not in `notes.h`). -/
def initialEnvelope (cfg : EngineConfig) : EnvelopeKind → EnvelopeState
  | .adsr => { stage := .attack, progress := 0, amplitude := 0 }
  | .tremolo => { stage := .attack, progress := 0, amplitude := 0 }
  | .sustain => { stage := .attack, progress := 0, amplitude := 0 }
  | .gate => { stage := .gateOn, progress := 0, amplitude := cfg.fullAmplitude }
  | .linear => { stage := .decay, progress := 0, amplitude := cfg.fullAmplitude }
  | .exp => { stage := .decay, progress := 0, amplitude := cfg.fullAmplitude }

/-- Modelled from the spec: the slot contents `startNote` installs, with the
phase accumulator at zero and the envelope in its initial state (the body of
`startNote` is not in `notes.h`). -/
def newSlot (cfg : EngineConfig) (vk : VoiceKind) (ek : EnvelopeKind)
    (midi volumeDelta sweepMillisecs vibratoPercent : Int) : VoiceSlot :=
  { active := true, voiceKind := vk, envelopeKind := ek, midiNoteNumber := midi,
    phaseAccumulator := 0, volumeDelta := volumeDelta, sweepMillisecs := sweepMillisecs,
    vibratoPercent := vibratoPercent, envelopeState := initialEnvelope cfg ek }

/-- Modelled from the spec: the first slot that is not active, if any (the
allocator is not in `notes.h`). -/
def firstFree (e : Engine) : Option (Fin MAXVOICES) :=
  (List.finRange MAXVOICES).find? (fun i => !(e.slots i).active)

/-- Modelled from the spec: overwriting one slot of the pool (the pool is not
in `notes.h`). -/
def setSlot (e : Engine) (i : Fin MAXVOICES) (s : VoiceSlot) : Engine :=
  { slots := Function.update e.slots i s }

/-- Modelled from the spec: the number of active slots (the pool is not in
`notes.h`). -/
def activeCount (e : Engine) : Nat :=
  (Finset.univ.filter (fun i => (e.slots i).active = true)).card

/-- Modelled from the spec: `setupNotes` walks the pool and resets every slot
to inactive, zeroing its state (only the prototype of `setupNotes` is in `notes.h`). -/
def setupNotes (e : Engine) : Engine :=
  (List.finRange MAXVOICES).foldl (fun acc i => setSlot acc i VoiceSlot.idle) e

/-- Modelled from the spec: the engine right after a fresh boot, every slot
inactive (the pool is not in `notes.h`). -/
def freshBoot : Engine :=
  { slots := fun _ => VoiceSlot.idle }

/-- Modelled from the spec: `startNote`, the Voice Allocator contract of
section 4.1.  A request with a voice or envelope outside the catalogs, or with
a pitch the pitch policy refuses, leaves the engine as it is.  Otherwise the
new note goes to the first free slot, or when none is free to the slot the
saturation policy steals, or is dropped when the policy steals none (only the
prototype of `startNote` is in `notes.h`). -/
def startNote (cfg : EngineConfig) (e : Engine)
    (note midiNoteNumber voice volumeDelta envelope sweepMillisecs vibratoPercent : Int) :
    Engine :=
  match voiceOfIndex voice, envelopeOfIndex envelope, admitMidi cfg midiNoteNumber with
  | some vk, some ek, some midi =>
    let fresh := newSlot cfg vk ek midi volumeDelta sweepMillisecs vibratoPercent
    match firstFree e with
    | some i => setSlot e i fresh
    | none =>
      match cfg.saturation e with
      | some i => setSlot e i fresh
      | none => e
  | _, _, _ => e

/-- Modelled from the spec: the argument tuple of one `startNote` call, in the
order of the prototype. -/
structure NoteCall where
  note : Int
  midiNoteNumber : Int
  voice : Int
  volumeDelta : Int
  envelope : Int
  sweepMillisecs : Int
  vibratoPercent : Int
  deriving DecidableEq, Repr

/-- Modelled from the spec: one `startNote` call applied to the engine. -/
def applyCall (cfg : EngineConfig) (e : Engine) (c : NoteCall) : Engine :=
  startNote cfg e c.note c.midiNoteNumber c.voice c.volumeDelta c.envelope c.sweepMillisecs
    c.vibratoPercent

/-- Modelled from the spec: a sequence of `startNote` calls applied in
order. -/
def playAll (cfg : EngineConfig) (e : Engine) (calls : List NoteCall) : Engine :=
  calls.foldl (applyCall cfg) e

/-- Modelled from the spec: a call that starts a note, that is, one passing
the guards of `startNote`: voice and envelope within their catalogs, and a
pitch within `0 .. maxMidi` unless the engine clamps. -/
def startsNote (cfg : EngineConfig) (c : NoteCall) : Prop :=
  (0 ≤ c.voice ∧ c.voice < (MAXVOICES : Int)) ∧
  (0 ≤ c.envelope ∧ c.envelope < (MAXENVELOPES : Int)) ∧
  (cfg.midiPolicy = MidiPolicy.clamp ∨
    (0 ≤ c.midiNoteNumber ∧ c.midiNoteNumber ≤ (cfg.maxMidi : Int)))

instance (cfg : EngineConfig) (c : NoteCall) : Decidable (startsNote cfg c) :=
  inferInstanceAs (Decidable
    ((0 ≤ c.voice ∧ c.voice < (MAXVOICES : Int)) ∧
      (0 ≤ c.envelope ∧ c.envelope < (MAXENVELOPES : Int)) ∧
      (cfg.midiPolicy = MidiPolicy.clamp ∨
        (0 ≤ c.midiNoteNumber ∧ c.midiNoteNumber ≤ (cfg.maxMidi : Int)))))

/-- Modelled from the spec: a drop-on-saturation engine with 127 as the
highest pitch, used to evaluate the model on concrete calls. -/
def sampleConfig : EngineConfig :=
  { maxMidi := 127, maxMidi_u16 := by decide, fullAmplitude := 255,
    midiPolicy := .ignore, saturation := fun _ => none }

/-- Modelled from the spec: the scenario call of section 8,
`startNote(0, 60, VOICE_SINE, 0, ENVELOPE_LINEAR, 0, 0)`. -/
def middleC : NoteCall :=
  { note := 0, midiNoteNumber := 60, voice := VOICE_SINE, volumeDelta := 0,
    envelope := ENVELOPE_LINEAR, sweepMillisecs := 0, vibratoPercent := 0 }

end Pisano

namespace Pisano

/-! ## Shared arithmetic facts -/

/-- The headroom shift halves the accumulator, rounding towards minus
infinity. -/
theorem mixShift_eq_div (samples : List Int) : mixShift samples = samples.sum / 2 := by
  unfold mixShift NOTE_OVERFLOW_SHIFT
  rw [Int.shiftRight_eq_div_pow]
  norm_num

/-- A list of samples, each within `[-M, M]`, sums to within
`[-(length * M), length * M]`. -/
theorem sum_bounds (M : Int) (samples : List Int)
    (h : ∀ s ∈ samples, -M ≤ s ∧ s ≤ M) :
    -((samples.length : Int) * M) ≤ samples.sum ∧ samples.sum ≤ (samples.length : Int) * M := by
  induction samples with
  | nil => simp
  | cons x xs ih =>
    have hx := h x (List.mem_cons_self x xs)
    have hxs := ih (fun s hs => h s (List.mem_cons_of_mem x hs))
    simp only [List.sum_cons, List.length_cons, Nat.cast_add, Nat.cast_one]
    constructor <;> nlinarith [hx.1, hx.2, hxs.1, hxs.2]


/-! ## Configuration facts -/

/-- Claim C2: the six voice identifiers are pairwise distinct, are the integers
0 to 5 in the order declared, and an integer is a declared voice exactly when
it lies in `0 .. MAXVOICES - 1`. -/
theorem declaredVoices_exact :
    declaredVoices = [0, 1, 2, 3, 4, 5] ∧ declaredVoices.Nodup ∧
      ∀ v : Int, v ∈ declaredVoices ↔ (0 ≤ v ∧ v < (MAXVOICES : Int)) := by
  refine ⟨rfl, by decide, ?_⟩
  intro v
  simp only [declaredVoices, VOICE_SINE, VOICE_SQUARE, VOICE_TRIANGLE, VOICE_SAWTOOTH,
    VOICE_BRASS, VOICE_VIBRA, MAXVOICES, List.mem_cons, List.mem_singleton, List.not_mem_nil,
    or_false, Nat.cast_ofNat]
  omega

/-- Claim C3: the six envelope identifiers are pairwise distinct, are the
integers 0 to 5 in the order declared, and an integer is a declared envelope
exactly when it lies in `0 .. MAXENVELOPES - 1`. -/
theorem declaredEnvelopes_exact :
    declaredEnvelopes = [0, 1, 2, 3, 4, 5] ∧ declaredEnvelopes.Nodup ∧
      ∀ e : Int, e ∈ declaredEnvelopes ↔ (0 ≤ e ∧ e < (MAXENVELOPES : Int)) := by
  refine ⟨rfl, by decide, ?_⟩
  intro e
  simp only [declaredEnvelopes, ENVELOPE_LINEAR, ENVELOPE_EXP, ENVELOPE_GATE, ENVELOPE_ADSR,
    ENVELOPE_SUSTAIN, ENVELOPE_TREMOLO, MAXENVELOPES, List.mem_cons, List.mem_singleton,
    List.not_mem_nil, or_false, Nat.cast_ofNat]
  omega

/-- Claim C4: the configured capacities satisfy `NOTES ≤ MAXVOICES`. -/
theorem notes_le_maxvoices : NOTES ≤ MAXVOICES := by
  decide

/-- Claim C8: the header's sizing table, read as steps, suggests a shift for
the configured `NOTES`, and that shift is no larger than the configured
`NOTE_OVERFLOW_SHIFT`. -/
theorem configured_shift_follows_guidance :
    ∃ s, suggestedShift NOTES = some s ∧ s ≤ NOTE_OVERFLOW_SHIFT := by
  exact ⟨1, by decide, by decide⟩

/-! ## Mixer headroom -/

/-- Claim C1, as stated, fails: three samples at the full scale of an 8-bit
sink, `M = 127`, are within `[-M, M]` and at most `NOTES` in number, and their
shifted sum is 190, above `M`. -/
theorem mixShift_three_full_scale_exceeds :
    (0 : Int) < 127 ∧ ([127, 127, 127] : List Int).length ≤ NOTES ∧
      (∀ s ∈ ([127, 127, 127] : List Int), -127 ≤ s ∧ s ≤ 127) ∧
      mixShift [127, 127, 127] = 190 ∧ ¬ (mixShift [127, 127, 127] ≤ 127) := by
  refine ⟨by decide, by decide, by decide, ?_, ?_⟩
  · rw [mixShift_eq_div]; decide
  · rw [mixShift_eq_div]; decide

/-- Claim C1, amended: for samples within `[-M, M]`, the shifted sum of at most
`NOTES` of them lies between the floors of `-3M/2` and `3M/2`, and the shifted
sum of at most `2 ^ NOTE_OVERFLOW_SHIFT` of them lies within `[-M, M]`. -/
theorem mixShift_headroom (M : Int) (hM : 0 < M) (samples : List Int)
    (hin : ∀ s ∈ samples, -M ≤ s ∧ s ≤ M) :
    (samples.length ≤ NOTES →
        (-(3 * M)) / 2 ≤ mixShift samples ∧ mixShift samples ≤ (3 * M) / 2) ∧
      (samples.length ≤ 2 ^ NOTE_OVERFLOW_SHIFT →
        -M ≤ mixShift samples ∧ mixShift samples ≤ M) := by
  have hsum := sum_bounds M samples hin
  rw [mixShift_eq_div]
  constructor
  · intro hlen
    have hl : (samples.length : Int) ≤ 3 := by
      have : samples.length ≤ 3 := hlen
      exact_mod_cast this
    have h1 : (samples.length : Int) * M ≤ 3 * M := by nlinarith
    omega
  · intro hlen
    have hl : (samples.length : Int) ≤ 2 := by
      have : samples.length ≤ 2 := hlen
      exact_mod_cast this
    have h1 : (samples.length : Int) * M ≤ 2 * M := by nlinarith
    omega

/-- The amended headroom bound applied to two full-scale samples of an 8-bit
sink. -/
theorem mixShift_headroom_witness :
    (0 : Int) < 127 ∧ (∀ s ∈ ([127, 127] : List Int), -127 ≤ s ∧ s ≤ 127) ∧
      ([127, 127] : List Int).length ≤ NOTES ∧
      ([127, 127] : List Int).length ≤ 2 ^ NOTE_OVERFLOW_SHIFT ∧
      ((-(3 * 127)) / 2 ≤ mixShift [127, 127] ∧ mixShift [127, 127] ≤ (3 * 127) / 2) ∧
      (-127 ≤ mixShift [127, 127] ∧ mixShift [127, 127] ≤ 127) :=
  ⟨by decide, by decide, by decide, by decide,
    (mixShift_headroom 127 (by decide) [127, 127] (by decide)).1 (by decide),
    (mixShift_headroom 127 (by decide) [127, 127] (by decide)).2 (by decide)⟩


/-! ## Slot pool facts -/

/-- The pool never holds more active slots than it has slots. -/
theorem activeCount_le (e : Engine) : activeCount e ≤ MAXVOICES := by
  unfold activeCount
  calc (Finset.univ.filter (fun i => (e.slots i).active = true)).card
      ≤ (Finset.univ : Finset (Fin MAXVOICES)).card := Finset.card_filter_le _ _
    _ = MAXVOICES := by simp

/-- The slot `firstFree` returns is inactive. -/
theorem firstFree_some {e : Engine} {i : Fin MAXVOICES} (h : firstFree e = some i) :
    (e.slots i).active = false := by
  have hp := List.find?_some h
  simpa using hp

/-- When `firstFree` finds nothing, every slot is active. -/
theorem firstFree_none {e : Engine} (h : firstFree e = none) (i : Fin MAXVOICES) :
    (e.slots i).active = true := by
  have hp := (List.find?_eq_none.mp h) i (List.mem_finRange i)
  simpa using hp

/-- A pool whose slots are all active counts `MAXVOICES` active slots. -/
theorem activeCount_of_all_active {e : Engine} (h : ∀ i, (e.slots i).active = true) :
    activeCount e = MAXVOICES := by
  unfold activeCount
  rw [Finset.filter_true_of_mem (fun i _ => h i)]
  simp

/-- Installing an active slot over an inactive one adds one active slot. -/
theorem activeCount_setSlot_free {e : Engine} {i : Fin MAXVOICES} {s : VoiceSlot}
    (hfree : (e.slots i).active = false) (hs : s.active = true) :
    activeCount (setSlot e i s) = activeCount e + 1 := by
  unfold activeCount setSlot
  have hset : Finset.univ.filter (fun j => (Function.update e.slots i s j).active = true)
      = insert i (Finset.univ.filter (fun j => (e.slots j).active = true)) := by
    ext j
    by_cases hj : j = i
    · subst hj
      simp [hs]
    · simp [Function.update_noteq hj, hj]
  have hnot : i ∉ Finset.univ.filter (fun j => (e.slots j).active = true) := by
    simp [hfree]
  simp only [hset]
  exact Finset.card_insert_of_not_mem hnot

/-- Installing an active slot in a pool whose slots are all active leaves them
all active. -/
theorem setSlot_all_active {e : Engine} {s : VoiceSlot} (i : Fin MAXVOICES)
    (h : ∀ j, (e.slots j).active = true) (hs : s.active = true) (j : Fin MAXVOICES) :
    ((setSlot e i s).slots j).active = true := by
  unfold setSlot
  by_cases hj : j = i
  · subst hj
    simp [hs]
  · simp [Function.update_noteq hj, h j]

/-- A voice index within the catalog passes the guard. -/
theorem voiceOfIndex_isSome {v : Int} (h0 : 0 ≤ v) (h1 : v < (MAXVOICES : Int)) :
    ∃ vk, voiceOfIndex v = some vk := by
  simp only [MAXVOICES, Nat.cast_ofNat] at h1
  interval_cases v <;> exact ⟨_, rfl⟩

/-- An envelope index within the catalog passes the guard. -/
theorem envelopeOfIndex_isSome {v : Int} (h0 : 0 ≤ v) (h1 : v < (MAXENVELOPES : Int)) :
    ∃ ek, envelopeOfIndex v = some ek := by
  simp only [MAXENVELOPES, Nat.cast_ofNat] at h1
  interval_cases v <;> exact ⟨_, rfl⟩

/-- The clamped pitch lies within `0 .. maxMidi`. -/
theorem clampMidi_range (cfg : EngineConfig) (m : Int) :
    0 ≤ clampMidi cfg m ∧ clampMidi cfg m ≤ (cfg.maxMidi : Int) := by
  unfold clampMidi
  split_ifs <;> omega

/-- Every pitch `admitMidi` lets through lies within `0 .. maxMidi`. -/
theorem admitMidi_range {cfg : EngineConfig} {m m' : Int} (h : admitMidi cfg m = some m') :
    0 ≤ m' ∧ m' ≤ (cfg.maxMidi : Int) := by
  unfold admitMidi at h
  split_ifs at h with hr
  · cases h
    exact hr
  · cases hp : cfg.midiPolicy with
    | clamp =>
      rw [hp] at h
      cases h
      exact clampMidi_range cfg m
    | ignore =>
      rw [hp] at h
      cases h

/-- A call that starts a note has its pitch admitted. -/
theorem admitMidi_isSome {cfg : EngineConfig} {m : Int}
    (h : cfg.midiPolicy = MidiPolicy.clamp ∨ (0 ≤ m ∧ m ≤ (cfg.maxMidi : Int))) :
    ∃ m', admitMidi cfg m = some m' := by
  unfold admitMidi
  split_ifs with hr
  · exact ⟨_, rfl⟩
  · rcases h with h | h
    · rw [h]
      exact ⟨_, rfl⟩
    · exact absurd h hr

/-- One call that starts a note adds an active slot, unless the pool is already
full, in which case the pool stays full. -/
theorem activeCount_applyCall {cfg : EngineConfig} {c : NoteCall} (hc : startsNote cfg c)
    (e : Engine) : activeCount (applyCall cfg e c) = min (activeCount e + 1) MAXVOICES := by
  obtain ⟨⟨hv0, hv1⟩, ⟨he0, he1⟩, hm⟩ := hc
  obtain ⟨vk, hvk⟩ := voiceOfIndex_isSome hv0 hv1
  obtain ⟨ek, hek⟩ := envelopeOfIndex_isSome he0 he1
  obtain ⟨m', hm'⟩ := admitMidi_isSome hm
  simp only [applyCall, startNote, hvk, hek, hm']
  cases hf : firstFree e with
  | some i =>
    simp only []
    have hstep := activeCount_setSlot_free (e := e) (i := i)
      (s := newSlot cfg vk ek m' c.volumeDelta c.sweepMillisecs c.vibratoPercent)
      (firstFree_some hf) rfl
    have hle := activeCount_le (setSlot e i
      (newSlot cfg vk ek m' c.volumeDelta c.sweepMillisecs c.vibratoPercent))
    omega
  | none =>
    simp only []
    have hall := firstFree_none hf
    have hfull := activeCount_of_all_active hall
    cases hs : cfg.saturation e with
    | some i =>
      simp only []
      rw [activeCount_of_all_active (setSlot_all_active i hall rfl)]
      omega
    | none =>
      simp only []
      omega

/-- A run of calls that all start a note adds one active slot per call until
the pool is full. -/
theorem activeCount_playAll {cfg : EngineConfig} (calls : List NoteCall)
    (hc : ∀ c ∈ calls, startsNote cfg c) (e : Engine) :
    activeCount (playAll cfg e calls) = min (activeCount e + calls.length) MAXVOICES := by
  induction calls generalizing e with
  | nil =>
    have := activeCount_le e
    simp only [playAll, List.foldl_nil, List.length_nil]
    omega
  | cons c rest ih =>
    have hrest := ih (fun d hd => hc d (List.mem_cons_of_mem c hd)) (applyCall cfg e c)
    have hstep := activeCount_applyCall (hc c (List.mem_cons_self c rest)) e
    simp only [playAll, List.foldl_cons, List.length_cons] at hrest ⊢
    rw [hrest, hstep]
    omega

/-- Resetting the slots of a list of indices leaves exactly the other slots as
they were. -/
theorem foldl_reset_slots (l : List (Fin MAXVOICES)) (e : Engine) (j : Fin MAXVOICES) :
    (l.foldl (fun acc i => setSlot acc i VoiceSlot.idle) e).slots j
      = if j ∈ l then VoiceSlot.idle else e.slots j := by
  induction l generalizing e with
  | nil => simp
  | cons a rest ih =>
    simp only [List.foldl_cons, List.mem_cons]
    rw [ih]
    by_cases hj : j ∈ rest
    · simp [hj]
    · by_cases ha : j = a
      · subst ha
        simp [hj, setSlot]
      · simp [hj, ha, setSlot, Function.update_noteq ha]

/-- After `setupNotes` the pool is the pool of a fresh boot. -/
theorem setupNotes_eq_freshBoot (e : Engine) : setupNotes e = freshBoot := by
  have hslots : (setupNotes e).slots = freshBoot.slots := by
    funext j
    unfold setupNotes freshBoot
    rw [foldl_reset_slots]
    simp [List.mem_finRange]
  cases hs : setupNotes e with
  | mk slots =>
    rw [hs] at hslots
    simp only at hslots
    rw [hslots]

/-- A fresh boot has no active slot. -/
theorem activeCount_freshBoot : activeCount freshBoot = 0 := by
  simp [activeCount, freshBoot, VoiceSlot.idle]

/-- One `startNote` call keeps every slot's pitch within `0 .. maxMidi`. -/
theorem applyCall_midi_range {cfg : EngineConfig} {e : Engine} (c : NoteCall)
    (h : ∀ i, 0 ≤ (e.slots i).midiNoteNumber ∧ (e.slots i).midiNoteNumber ≤ (cfg.maxMidi : Int))
    (i : Fin MAXVOICES) :
    0 ≤ ((applyCall cfg e c).slots i).midiNoteNumber ∧
      ((applyCall cfg e c).slots i).midiNoteNumber ≤ (cfg.maxMidi : Int) := by
  have hset : ∀ (k : Fin MAXVOICES) (s : VoiceSlot),
      (0 ≤ s.midiNoteNumber ∧ s.midiNoteNumber ≤ (cfg.maxMidi : Int)) →
      0 ≤ ((setSlot e k s).slots i).midiNoteNumber ∧
        ((setSlot e k s).slots i).midiNoteNumber ≤ (cfg.maxMidi : Int) := by
    intro k s hs
    unfold setSlot
    by_cases hik : i = k
    · subst hik
      simpa using hs
    · simpa [Function.update_noteq hik] using h i
  unfold applyCall startNote
  split
  · next vk ek m _ _ hm =>
    have hr := admitMidi_range hm
    simp only []
    split
    · exact hset _ _ hr
    · split
      · exact hset _ _ hr
      · exact h i
  · exact h i

/-- Every state reached from `setupNotes` by `startNote` calls keeps every
slot's pitch within `0 .. maxMidi`. -/
theorem playAll_midi_range {cfg : EngineConfig} (calls : List NoteCall) (e : Engine)
    (h : ∀ i, 0 ≤ (e.slots i).midiNoteNumber ∧ (e.slots i).midiNoteNumber ≤ (cfg.maxMidi : Int))
    (i : Fin MAXVOICES) :
    0 ≤ ((playAll cfg e calls).slots i).midiNoteNumber ∧
      ((playAll cfg e calls).slots i).midiNoteNumber ≤ (cfg.maxMidi : Int) := by
  induction calls generalizing e with
  | nil => exact h i
  | cons c rest ih =>
    simp only [playAll, List.foldl_cons]
    exact ih (applyCall cfg e c) (fun k => applyCall_midi_range c h k)


/-! ## Engine contract -/

/-- Claim C5: after `setupNotes`, whatever `startNote` calls follow, the number
of active slots is at most `MAXVOICES` after every call; and `MAXVOICES + 1`
calls that each start a note leave exactly `MAXVOICES` slots active. -/
theorem startNote_pool_capacity (cfg : EngineConfig) (e0 : Engine) (calls : List NoteCall) :
    (∀ k, activeCount (playAll cfg (setupNotes e0) (calls.take k)) ≤ MAXVOICES) ∧
      (calls.length = MAXVOICES + 1 → (∀ c ∈ calls, startsNote cfg c) →
        activeCount (playAll cfg (setupNotes e0) calls) = MAXVOICES) := by
  constructor
  · intro k
    exact activeCount_le _
  · intro hlen hc
    rw [activeCount_playAll calls hc, setupNotes_eq_freshBoot, activeCount_freshBoot, hlen]
    simp

/-- Seven middle-C requests on the sample engine leave six active slots. -/
theorem startNote_pool_capacity_witness :
    (List.replicate 7 middleC).length = MAXVOICES + 1 ∧
      (∀ c ∈ List.replicate 7 middleC, startsNote sampleConfig c) ∧
      activeCount (playAll sampleConfig (setupNotes freshBoot) (List.replicate 7 middleC))
        = MAXVOICES :=
  ⟨by decide, by decide,
    (startNote_pool_capacity sampleConfig freshBoot (List.replicate 7 middleC)).2
      (by decide) (by decide)⟩

/-- Claim C6: `setupNotes` is a reset.  From every engine state it yields the
fresh-boot state, in which every slot is inactive; applying it twice equals
applying it once; and a `startNote` made after it gives the same state whatever
the state before `setupNotes` was. -/
theorem setupNotes_is_reset :
    (∀ e : Engine, setupNotes e = freshBoot) ∧
      (∀ i : Fin MAXVOICES, (freshBoot.slots i).active = false) ∧
      (∀ e : Engine, setupNotes (setupNotes e) = setupNotes e) ∧
      (∀ (cfg : EngineConfig) (e1 e2 : Engine)
        (note midiNoteNumber voice volumeDelta envelope sweepMillisecs vibratoPercent : Int),
        startNote cfg (setupNotes e1) note midiNoteNumber voice volumeDelta envelope
            sweepMillisecs vibratoPercent
          = startNote cfg (setupNotes e2) note midiNoteNumber voice volumeDelta envelope
            sweepMillisecs vibratoPercent) := by
  refine ⟨setupNotes_eq_freshBoot, fun _ => rfl, ?_, ?_⟩
  · intro e
    rw [setupNotes_eq_freshBoot (setupNotes e), setupNotes_eq_freshBoot e]
  · intro cfg e1 e2 note midiNoteNumber voice volumeDelta envelope sweepMillisecs vibratoPercent
    rw [setupNotes_eq_freshBoot e1, setupNotes_eq_freshBoot e2]

/-- Claim C7: a `startNote` call whose pitch is negative or above `maxMidi` is
either ignored or acts as the same call with the pitch clamped into
`0 .. maxMidi`; and in every state reached from `setupNotes` by `startNote`
calls, every slot holds a pitch within `0 .. maxMidi`. -/
theorem startNote_midi_guard (cfg : EngineConfig) :
    (∀ (e : Engine)
        (note midiNoteNumber voice volumeDelta envelope sweepMillisecs vibratoPercent : Int),
        (midiNoteNumber < 0 ∨ (cfg.maxMidi : Int) < midiNoteNumber) →
        startNote cfg e note midiNoteNumber voice volumeDelta envelope sweepMillisecs
            vibratoPercent = e ∨
          ((0 ≤ clampMidi cfg midiNoteNumber ∧
              clampMidi cfg midiNoteNumber ≤ (cfg.maxMidi : Int)) ∧
            startNote cfg e note midiNoteNumber voice volumeDelta envelope sweepMillisecs
                vibratoPercent
              = startNote cfg e note (clampMidi cfg midiNoteNumber) voice volumeDelta envelope
                sweepMillisecs vibratoPercent)) ∧
      (∀ (e0 : Engine) (calls : List NoteCall) (i : Fin MAXVOICES),
        0 ≤ ((playAll cfg (setupNotes e0) calls).slots i).midiNoteNumber ∧
          ((playAll cfg (setupNotes e0) calls).slots i).midiNoteNumber ≤ (cfg.maxMidi : Int)) := by
  constructor
  · intro e note midiNoteNumber voice volumeDelta envelope sweepMillisecs vibratoPercent hout
    have hnot : ¬ (0 ≤ midiNoteNumber ∧ midiNoteNumber ≤ (cfg.maxMidi : Int)) := by omega
    have hcl := clampMidi_range cfg midiNoteNumber
    cases hp : cfg.midiPolicy with
    | ignore =>
      left
      have hadm : admitMidi cfg midiNoteNumber = none := by
        simp [admitMidi, hnot, hp]
      unfold startNote
      rw [hadm]
      split
      · next h => cases h
      · rfl
    | clamp =>
      right
      refine ⟨hcl, ?_⟩
      have h1 : admitMidi cfg midiNoteNumber = some (clampMidi cfg midiNoteNumber) := by
        simp [admitMidi, hnot, hp]
      have h2 : admitMidi cfg (clampMidi cfg midiNoteNumber)
          = some (clampMidi cfg midiNoteNumber) := by
        simp [admitMidi, hcl]
      unfold startNote
      rw [h1, h2]
  · intro e0 calls i
    apply playAll_midi_range
    intro k
    rw [setupNotes_eq_freshBoot]
    simp [freshBoot, VoiceSlot.idle]

/-- A request for pitch 200 on the sample engine, whose highest pitch is 127 and
which ignores out-of-range pitches, leaves the engine as it was or acts as a
request for pitch 127. -/
theorem startNote_midi_guard_witness :
    ((200 : Int) < 0 ∨ (sampleConfig.maxMidi : Int) < 200) ∧
      (startNote sampleConfig freshBoot 0 200 VOICE_SINE 0 ENVELOPE_LINEAR 0 0 = freshBoot ∨
        ((0 ≤ clampMidi sampleConfig 200 ∧
            clampMidi sampleConfig 200 ≤ (sampleConfig.maxMidi : Int)) ∧
          startNote sampleConfig freshBoot 0 200 VOICE_SINE 0 ENVELOPE_LINEAR 0 0
            = startNote sampleConfig freshBoot 0 (clampMidi sampleConfig 200) VOICE_SINE 0
              ENVELOPE_LINEAR 0 0)) :=
  ⟨by decide,
    (startNote_midi_guard sampleConfig).1 freshBoot 0 200 VOICE_SINE 0 ENVELOPE_LINEAR 0 0
      (by decide)⟩

end Pisano
